import Mathlib

/-!
Shallow embedding of the face-recognition attendance system: the SQLite
schema from Backend/database/migrations.ts, the query layer from
Backend/database/queries.ts, and the decision logic of the users and
attendance HTTP routers.

Modelling conventions:
* DATETIME values (SQL CURRENT_TIMESTAMP) are Nat clock readings passed in
  by the caller; DATE strings stay String.
* REAL confidence scores are rationals.
* Every query is a pure function on an explicit database state DB.
* The INSERT of recordCheckIn fails exactly on a violation of the
  UNIQUE(user_id, date) constraint (SQLite leaves the foreign key
  unenforced by default); the source catches the failure and runs the
  UPDATE branch, so the embedding branches on whether the key row exists.
* The face matcher itself lives in /python/face_recognition_service.py,
  which is not part of the repository snapshot; it is modelled from the
  spec where noted.
-/

/-- Row of table users_v1 (migrations.ts): id AUTOINCREMENT, name, email
UNIQUE, face_encoding, created_at DEFAULT CURRENT_TIMESTAMP, is_active
DEFAULT 1. -/
structure UserRow where
  id : Nat
  name : String
  email : String
  face_encoding : String
  created_at : Nat
  is_active : Bool
deriving DecidableEq

/-- Row of table attendance_v1 (migrations.ts): id AUTOINCREMENT, user_id,
check_in_time DEFAULT CURRENT_TIMESTAMP, check_out_time NULL, date,
confidence_score REAL, UNIQUE(user_id, date). -/
structure AttRow where
  id : Nat
  user_id : Nat
  check_in_time : Nat
  check_out_time : Option Nat
  date : String
  confidence_score : ℚ
deriving DecidableEq

/-- Row of table face_samples_v1 (migrations.ts); the AUTOINCREMENT id and
created_at default columns are never read by any query in the repository
and are elided. -/
structure SampleRow where
  user_id : Nat
  image_data : String
  encoding_data : String
deriving DecidableEq

/-- The whole SQLite database, plus the AUTOINCREMENT counters. -/
structure DB where
  users : List UserRow
  attendance : List AttRow
  face_samples : List SampleRow
  next_user_id : Nat
  next_att_id : Nat
deriving DecidableEq

/-- Insert an element in front of the first list entry b with le a b true;
building block of the insertion sort that models SQL ORDER BY. -/
def insertLe (le : α → α → Bool) (a : α) : List α → List α
  | [] => [a]
  | b :: l => if le a b then a :: b :: l else b :: insertLe le a l

/-- Insertion sort by the Boolean relation le; models SQL ORDER BY. -/
def sortLe (le : α → α → Bool) : List α → List α
  | [] => []
  | a :: l => insertLe le a (sortLe le l)

/-- queries.ts getUserById: SELECT * FROM users_v1 WHERE id = ? AND
is_active = 1 (first row or null). -/
def getUserById (id : Nat) (db : DB) : Option UserRow :=
  db.users.find? (fun u => u.id == id && u.is_active)

/-- queries.ts getUserByEmail: SELECT * FROM users_v1 WHERE email = ? AND
is_active = 1 (first row or null). -/
def getUserByEmail (email : String) (db : DB) : Option UserRow :=
  db.users.find? (fun u => u.email == email && u.is_active)

/-- Projection returned by getAllUsers, which SELECTs id, name, email,
created_at, is_active (the face encoding is not returned). -/
structure UserPublic where
  id : Nat
  name : String
  email : String
  created_at : Nat
  is_active : Bool
deriving DecidableEq

/-- queries.ts getAllUsers: SELECT id, name, email, created_at, is_active
FROM users_v1 WHERE is_active = 1 ORDER BY name. -/
def getAllUsers (db : DB) : List UserPublic :=
  sortLe (fun u v => decide (u.name ≤ v.name))
    ((db.users.filter (fun u => u.is_active)).map
      (fun u => ⟨u.id, u.name, u.email, u.created_at, u.is_active⟩))

/-- Triple returned by getAllUserEncodings. -/
structure EncRow where
  id : Nat
  name : String
  face_encoding : String
deriving DecidableEq

/-- queries.ts getAllUserEncodings: SELECT id, name, face_encoding FROM
users_v1 WHERE is_active = 1. -/
def getAllUserEncodings (db : DB) : List EncRow :=
  (db.users.filter (fun u => u.is_active)).map
    (fun u => ⟨u.id, u.name, u.face_encoding⟩)

/-- queries.ts createUser: INSERT INTO users_v1 (name, email,
face_encoding) VALUES (?, ?, ?). The insert throws on a violation of the
email UNIQUE constraint (over all rows, active or not), modelled as none;
on success it returns lastInsertRowId and the new state. created_at takes
the current clock, is_active its default 1. -/
def createUser (name email face_encoding : String) (now : Nat) (db : DB) :
    Option (Nat × DB) :=
  if db.users.any (fun u => u.email == email) then none
  else some (db.next_user_id,
    { db with
        users := db.users ++ [⟨db.next_user_id, name, email, face_encoding, now, true⟩],
        next_user_id := db.next_user_id + 1 })

/-- queries.ts addFaceSample: INSERT INTO face_samples_v1 (user_id,
image_data, encoding_data) VALUES (?, ?, ?). -/
def addFaceSample (userId : Nat) (imageData encodingData : String) (db : DB) : DB :=
  { db with face_samples := db.face_samples ++ [⟨userId, imageData, encodingData⟩] }

/-- The WHERE user_id = ? AND date = ? key test shared by the attendance
statements. -/
def attKey (userId : Nat) (today : String) (r : AttRow) : Bool :=
  r.user_id == userId && r.date == today

/-- queries.ts recordCheckIn: try INSERT INTO attendance_v1 (user_id, date,
confidence_score); on the UNIQUE(user_id, date) failure, UPDATE
attendance_v1 SET check_in_time = CURRENT_TIMESTAMP, confidence_score = ?
WHERE user_id = ? AND date = ?. The inserted row takes check_in_time =
CURRENT_TIMESTAMP (column default) and check_out_time NULL. -/
def recordCheckIn (now : Nat) (today : String) (userId : Nat) (conf : ℚ) (db : DB) : DB :=
  if db.attendance.any (attKey userId today) then
    { db with
        attendance := db.attendance.map (fun r =>
          if attKey userId today r then
            { r with check_in_time := now, confidence_score := conf }
          else r) }
  else
    { db with
        attendance := db.attendance ++ [⟨db.next_att_id, userId, now, none, today, conf⟩],
        next_att_id := db.next_att_id + 1 }

/-- queries.ts recordCheckOut: UPDATE attendance_v1 SET check_out_time =
CURRENT_TIMESTAMP WHERE user_id = ? AND date = ? AND check_out_time IS
NULL. -/
def recordCheckOut (now : Nat) (today : String) (userId : Nat) (db : DB) : DB :=
  { db with
      attendance := db.attendance.map (fun r =>
        if attKey userId today r && r.check_out_time.isNone then
          { r with check_out_time := some now }
        else r) }

/-- Joined row returned by getTodayAttendance: a.* plus u.name AS
user_name. -/
structure AttendanceView where
  id : Nat
  user_id : Nat
  user_name : String
  check_in_time : Nat
  check_out_time : Option Nat
  date : String
  confidence_score : ℚ
deriving DecidableEq

/-- queries.ts getTodayAttendance: SELECT a.*, u.name AS user_name FROM
attendance_v1 a JOIN users_v1 u ON a.user_id = u.id WHERE a.date = ?
ORDER BY a.check_in_time DESC. The inner join resolves each attendance row
against the users table (ids are the primary key, hence unique, so find?
yields the join partner); note it does not filter on is_active. -/
def getTodayAttendance (today : String) (db : DB) : List AttendanceView :=
  sortLe (fun a b => Nat.ble b.check_in_time a.check_in_time)
    ((db.attendance.filter (fun r => r.date == today)).filterMap (fun r =>
      (db.users.find? (fun u => u.id == r.user_id)).map (fun u =>
        ⟨r.id, r.user_id, u.name, r.check_in_time, r.check_out_time, r.date,
          r.confidence_score⟩)))

/-- Result shape of getAttendanceStats (shared/types.ts AttendanceStats). -/
structure AttendanceStats where
  total_users : Nat
  present_today : Nat
  total_checkins_today : Nat
  recent_checkins : List AttendanceView
deriving DecidableEq

/-- queries.ts getAttendanceStats: COUNT(*) over active users,
COUNT(DISTINCT user_id) and COUNT(*) over today's attendance rows, and the
first 10 entries of getTodayAttendance. -/
def getAttendanceStats (today : String) (db : DB) : AttendanceStats :=
  { total_users := (db.users.filter (fun u => u.is_active)).length,
    present_today :=
      ((db.attendance.filter (fun r => r.date == today)).map (fun r => r.user_id)).dedup.length,
    total_checkins_today := (db.attendance.filter (fun r => r.date == today)).length,
    recent_checkins := (getTodayAttendance today db).take 10 }

/-- JSON reply of a route: the success flag, message and HTTP status. -/
structure RouteResp where
  success : Bool
  message : String
  status : Nat
deriving DecidableEq

/-- Output of the external recognizer (shared/types.ts
FaceRecognitionResult). -/
structure RecognitionResult where
  success : Bool
  user_id : Option Nat
  user_name : String
  confidence : ℚ
  message : String

/-- The attendance router's POST /checkin handler: reject a missing image,
then reject when getAllUserEncodings is empty ("No registered users found
in the system", 400) before the recognizer is ever consulted, then forward
recognizer failures, and only on a successful recognition with a user_id
call recordCheckIn. pyOk models the exit code of the out-of-process
recognizer, recog its parsed output. -/
def checkinRoute (now : Nat) (today : String) (imageOk : Bool) (pyOk : Bool)
    (recog : RecognitionResult) (db : DB) : RouteResp × DB :=
  if !imageOk then (⟨false, "Image data is required", 400⟩, db)
  else if (getAllUserEncodings db).isEmpty then
    (⟨false, "No registered users found in the system", 400⟩, db)
  else if !pyOk then (⟨false, "Face recognition service error", 500⟩, db)
  else if !recog.success then (⟨false, recog.message, 200⟩, db)
  else
    match recog.user_id with
    | some uid =>
        (⟨true, recog.message, 200⟩, recordCheckIn now today uid recog.confidence db)
    | none => (⟨false, recog.message, 200⟩, db)

/-- Sequencing of the per-image encoding loop of the register route: the
loop aborts on the first image whose external encoding call fails, before
any database write. -/
def collectEncodings : List (Option String) → Option (List String)
  | [] => some []
  | none :: _ => none
  | some e :: rest => (collectEncodings rest).map (fun l => e :: l)

/-- The users router's POST /register handler: validate that name, email
and at least one face image are present; reject with 409 when
getUserByEmail finds an existing active user; run the external encoder on
every image (encodeImg, aborting on failure); create the user with the
first encoding as primary; then add one face sample per image. A throw
from the INSERT (email UNIQUE over all rows) is caught and reported as
500 with no state change. -/
def register (now : Nat) (name email : String) (face_images : List String)
    (encodeImg : String → Option String) (db : DB) : RouteResp × DB :=
  if name = "" ∨ email = "" ∨ face_images = [] then
    (⟨false, "Name, email, and at least one face image are required", 400⟩, db)
  else if (getUserByEmail email db).isSome then
    (⟨false, "User with this email already exists", 409⟩, db)
  else
    match collectEncodings (face_images.map encodeImg) with
    | none => (⟨false, "Failed to extract face encoding", 400⟩, db)
    | some faceEncodings =>
      match faceEncodings with
      | [] => (⟨false, "No valid face encodings could be extracted", 400⟩, db)
      | e0 :: _ =>
        match createUser name email e0 now db with
        | none => (⟨false, "Failed to register user", 500⟩, db)
        | some (userId, db1) =>
          (⟨true, "User registered successfully", 200⟩,
            (List.zip face_images faceEncodings).foldl
              (fun s p => addFaceSample userId p.1 p.2 s) db1)

/-- Modelled from the spec: squared Euclidean distance of two encoding
vectors (the face matcher itself, /python/face_recognition_service.py, is
absent from the repository snapshot). -/
def euclideanDistSq (xs ys : List ℚ) : ℚ :=
  ((List.zipWith (fun a b => a - b) xs ys).map (fun z => z * z)).sum

/-- Modelled from the spec: clamp a value into the unit interval. -/
def clamp01 (x : ℚ) : ℚ := max 0 (min 1 x)

/-- Modelled from the spec: confidence = clamp01(1 - distance / tolerance)
* 100, a percentage in the range zero to one hundred. -/
def confidencePct (d t : ℚ) : ℚ := clamp01 (1 - d / t) * 100

/-- Modelled from the spec: the typed outcome of matchFace. -/
inductive MatchOutcome where
  | noEnrolledUsers
  | invalidEncoding
  | result (matched : Bool) (userId : Option Nat) (distance : ℚ) (confidence : ℚ)
deriving DecidableEq

/-- Modelled from the spec: keep the candidate of smaller squared distance,
breaking ties by lowest userId. Comparing squared distances selects by
minimum Euclidean distance, since the square root is monotone on
nonnegatives. -/
def betterSq (a b : Nat × ℚ) : Nat × ℚ :=
  if a.2 < b.2 then a
  else if b.2 < a.2 then b
  else if a.1 ≤ b.1 then a else b

/-- Modelled from the spec: the winning (userId, squared distance) pair of
a nonempty candidate list. -/
def selectBestSq (probe : List ℚ) (c : Nat × List ℚ) (cs : List (Nat × List ℚ)) :
    Nat × ℚ :=
  (cs.map (fun x => (x.1, euclideanDistSq probe x.2))).foldl betterSq
    (c.1, euclideanDistSq probe c.2)

/-- d is the (nonnegative, exact) square root of sq; used to state the
Euclidean distance of the winner without leaving the rationals. -/
def isSqrtOf (d sq : ℚ) : Prop := 0 ≤ d ∧ d * d = sq

/-- Modelled from the spec: matchFace(probe, candidates, tolerance).
Empty candidates fail with NoEnrolledUsers; a dimensionality mismatch
fails with InvalidEncoding before any distance computation; otherwise the
candidate with minimum Euclidean distance wins (ties by lowest userId),
and the result is matched when the distance is within tolerance, carrying
the best distance and the confidence percentage either way. Stated as a
relation so the winner's true Euclidean distance d can be characterised by
isSqrtOf inside ℚ. -/
def matchFace (probe : List ℚ) (cands : List (Nat × List ℚ)) (tol : ℚ)
    (out : MatchOutcome) : Prop :=
  match cands with
  | [] => out = MatchOutcome.noEnrolledUsers
  | c :: cs =>
    if (c :: cs).any (fun x => x.2.length != probe.length) then
      out = MatchOutcome.invalidEncoding
    else
      ∃ d, isSqrtOf d (selectBestSq probe c cs).2 ∧
        (if d ≤ tol then
          out = MatchOutcome.result true (some (selectBestSq probe c cs).1) d
            (confidencePct d tol)
         else
          out = MatchOutcome.result false none d (confidencePct d tol))

/-- One ledger operation together with the clock reading at which it runs. -/
inductive AttOp where
  | checkIn (t : Nat) (userId : Nat) (conf : ℚ)
  | checkOut (t : Nat) (userId : Nat)
deriving DecidableEq

/-- The clock reading of an operation. -/
def AttOp.time : AttOp → Nat
  | .checkIn t _ _ => t
  | .checkOut t _ => t

/-- Whether an operation is a check-in for the given user. -/
def isCheckInFor (u : Nat) : AttOp → Bool
  | .checkIn _ v _ => v == u
  | .checkOut _ _ => false

/-- No operation of the list is a check-in for the given user. -/
def noCheckInFor (u : Nat) (ops : List AttOp) : Bool :=
  ops.all (fun op => !isCheckInFor u op)

/-- After every check-out of the sequence, no later check-in for the same
user occurs. -/
def okSeq : List AttOp → Bool
  | [] => true
  | AttOp.checkIn _ _ _ :: rest => okSeq rest
  | AttOp.checkOut _ u :: rest => noCheckInFor u rest && okSeq rest

/-- The operation times are at least the given lower bound and
nondecreasing along the list. -/
def timesMonoB : Nat → List AttOp → Bool
  | _, [] => true
  | t0, op :: rest => Nat.ble t0 op.time && timesMonoB op.time rest

/-- Run one ledger operation on the given calendar day. -/
def applyOp (today : String) (db : DB) : AttOp → DB
  | .checkIn t u conf => recordCheckIn t today u conf db
  | .checkOut t u => recordCheckOut t today u db

/-- Run a sequence of ledger operations on the given calendar day. -/
def runOps (today : String) (db : DB) (ops : List AttOp) : DB :=
  ops.foldl (applyOp today) db

/-- The spec's record invariant: the check-out timestamp, when present, is
not earlier than the check-in timestamp. -/
def checkOutInv (r : AttRow) : Prop :=
  ∀ t, r.check_out_time = some t → r.check_in_time ≤ t

/-- Induction invariant for the amended check-out claim: a row of today is
either still open with its check-in below the clock, or closed with
check-in below check-out below the clock and no further check-in for its
user pending; rows of other days satisfy the record invariant and are
never touched. -/
def rowOk (today : String) (tcur : Nat) (ops : List AttOp) (r : AttRow) : Prop :=
  (r.date = today →
    (r.check_out_time = none ∧ r.check_in_time ≤ tcur)
    ∨ (∃ t, r.check_out_time = some t ∧ r.check_in_time ≤ t ∧ t ≤ tcur ∧
        noCheckInFor r.user_id ops = true))
  ∧ (r.date ≠ today → checkOutInv r)

/-- The spec's user invariant: the email column is unique among active
users. -/
def emailUniqueActive (db : DB) : Prop :=
  db.users.Pairwise (fun u v => u.is_active = true → v.is_active = true → u.email ≠ v.email)

theorem insertLe_perm (le : α → α → Bool) (a : α) :
    ∀ l : List α, (insertLe le a l).Perm (a :: l) := by
  intro l
  induction l with
  | nil => simp [insertLe]
  | cons b l ih =>
    by_cases h : le a b = true
    · simp [insertLe, h]
    · simp only [insertLe, if_neg h]
      exact (ih.cons b).trans (List.Perm.swap a b l)

theorem sortLe_perm (le : α → α → Bool) : ∀ l : List α, (sortLe le l).Perm l := by
  intro l
  induction l with
  | nil => simp [sortLe]
  | cons a l ih => exact (insertLe_perm le a (sortLe le l)).trans (ih.cons a)

theorem insertLe_pairwise (le : α → α → Bool)
    (htot : ∀ a b, le a b = true ∨ le b a = true)
    (htr : ∀ a b c, le a b = true → le b c = true → le a c = true) (a : α) :
    ∀ l : List α, l.Pairwise (fun x y => le x y = true) →
      (insertLe le a l).Pairwise (fun x y => le x y = true) := by
  intro l
  induction l with
  | nil => intro _; simp [insertLe]
  | cons b l ih =>
    intro hp
    rw [List.pairwise_cons] at hp
    obtain ⟨hb, hl⟩ := hp
    by_cases h : le a b = true
    · simp only [insertLe, if_pos h]
      rw [List.pairwise_cons]
      refine ⟨?_, ?_⟩
      · intro x hx
        rcases List.mem_cons.mp hx with rfl | hx'
        · exact h
        · exact htr a b x h (hb x hx')
      · rw [List.pairwise_cons]
        exact ⟨hb, hl⟩
    · simp only [insertLe, if_neg h]
      rw [List.pairwise_cons]
      refine ⟨?_, ih hl⟩
      intro x hx
      rcases List.mem_cons.mp ((insertLe_perm le a l).mem_iff.mp hx) with rfl | hx'
      · rcases htot x b with h1 | h1
        · exact absurd h1 h
        · exact h1
      · exact hb x hx'

theorem sortLe_pairwise (le : α → α → Bool)
    (htot : ∀ a b, le a b = true ∨ le b a = true)
    (htr : ∀ a b c, le a b = true → le b c = true → le a c = true) :
    ∀ l : List α, (sortLe le l).Pairwise (fun x y => le x y = true) := by
  intro l
  induction l with
  | nil => simp [sortLe]
  | cons a l ih => exact insertLe_pairwise le htot htr a _ ih

theorem attKey_eq_true_iff (u : Nat) (d : String) (r : AttRow) :
    attKey u d r = true ↔ r.user_id = u ∧ r.date = d := by
  simp [attKey]

theorem attKey_update_check_in (u : Nat) (d : String) (r : AttRow) (now : Nat) (conf : ℚ) :
    attKey u d { r with check_in_time := now, confidence_score := conf } = attKey u d r := rfl

theorem recordCheckIn_filter_key (now : Nat) (today : String) (u : Nat) (conf : ℚ) (db : DB)
    (h : (db.attendance.filter (attKey u today)).length ≤ 1) :
    ∃ r, (recordCheckIn now today u conf db).attendance.filter (attKey u today) = [r]
      ∧ r.check_in_time = now ∧ r.confidence_score = conf := by
  by_cases hex : db.attendance.any (attKey u today) = true
  · have hfil : (recordCheckIn now today u conf db).attendance.filter (attKey u today)
        = (db.attendance.filter (attKey u today)).map (fun r =>
            if attKey u today r then
              { r with check_in_time := now, confidence_score := conf }
            else r) := by
      simp only [recordCheckIn, if_pos hex]
      rw [List.filter_map]
      congr 1
      apply List.filter_congr
      intro r _
      simp only [Function.comp_apply]
      by_cases hk : attKey u today r = true
      · rw [if_pos hk]
        rfl
      · rw [if_neg hk]
    have hpos : 0 < (db.attendance.filter (attKey u today)).length := by
      obtain ⟨x, hx, hpx⟩ := List.any_eq_true.mp hex
      have hxm : x ∈ db.attendance.filter (attKey u today) :=
        List.mem_filter.mpr ⟨hx, hpx⟩
      exact List.length_pos.mpr (fun hnil => by simp [hnil] at hxm)
    have hone : (db.attendance.filter (attKey u today)).length = 1 := le_antisymm h hpos
    obtain ⟨r0, hr0⟩ := List.length_eq_one.mp hone
    have hk0 : attKey u today r0 = true := by
      have : r0 ∈ db.attendance.filter (attKey u today) := by simp [hr0]
      exact (List.mem_filter.mp this).2
    refine ⟨{ r0 with check_in_time := now, confidence_score := conf }, ?_, rfl, rfl⟩
    rw [hfil, hr0]
    simp [if_pos hk0]
  · have hnew : attKey u today ⟨db.next_att_id, u, now, none, today, conf⟩ = true := by
      simp [attKey]
    refine ⟨⟨db.next_att_id, u, now, none, today, conf⟩, ?_, rfl, rfl⟩
    simp only [recordCheckIn, if_neg hex]
    rw [List.filter_append]
    have hleft : db.attendance.filter (attKey u today) = [] := by
      rw [List.filter_eq_nil_iff]
      intro a ha hka
      exact hex (List.any_eq_true.mpr ⟨a, ha, hka⟩)
    rw [hleft]
    simp [hnew]

theorem noCheckInFor_tail {u₀ : Nat} {op : AttOp} {ops : List AttOp}
    (h : noCheckInFor u₀ (op :: ops) = true) : noCheckInFor u₀ ops = true := by
  simp only [noCheckInFor, List.all_cons, Bool.and_eq_true] at h ⊢
  exact h.2

theorem rowOk_step {today : String} {t0 t1 : Nat} {op : AttOp} {ops : List AttOp}
    (h01 : t0 ≤ t1) (r : AttRow) (h : rowOk today t0 (op :: ops) r) :
    rowOk today t1 ops r := by
  obtain ⟨h1, h2⟩ := h
  refine ⟨fun hd => ?_, h2⟩
  rcases h1 hd with ⟨hn, hle⟩ | ⟨t, hs, ha, hb, hno⟩
  · exact Or.inl ⟨hn, hle.trans h01⟩
  · exact Or.inr ⟨t, hs, ha, hb.trans h01, noCheckInFor_tail hno⟩

theorem rowOk_nil_checkOutInv {today : String} {t0 : Nat} (r : AttRow)
    (h : rowOk today t0 [] r) : checkOutInv r := by
  obtain ⟨h1, h2⟩ := h
  by_cases hd : r.date = today
  · rcases h1 hd with ⟨hn, _⟩ | ⟨t, hs, ha, _, _⟩
    · intro t ht
      rw [hn] at ht
      cases ht
    · intro t' ht'
      rw [hs] at ht'
      injection ht' with he
      rw [← he]
      exact ha
  · exact h2 hd

theorem runOps_checkOutInv (today : String) :
    ∀ (ops : List AttOp) (t0 : Nat) (db : DB),
      timesMonoB t0 ops = true → okSeq ops = true →
      (∀ r ∈ db.attendance, rowOk today t0 ops r) →
      ∀ r ∈ (runOps today db ops).attendance, checkOutInv r := by
  intro ops
  induction ops with
  | nil =>
    intro t0 db _ _ h r hr
    simp only [runOps, List.foldl_nil] at hr
    exact rowOk_nil_checkOutInv r (h r hr)
  | cons op rest ih =>
    intro t0 db hm hs h
    simp only [timesMonoB, Bool.and_eq_true] at hm
    obtain ⟨hm1, hm2⟩ := hm
    have hle : t0 ≤ op.time := Nat.le_of_ble_eq_true hm1
    have hs2 : okSeq rest = true := by
      cases op with
      | checkIn t u conf => simpa [okSeq] using hs
      | checkOut t u =>
          have h2 : noCheckInFor u rest = true ∧ okSeq rest = true := by
            simpa [okSeq] using hs
          exact h2.2
    have hmain : ∀ r' ∈ (applyOp today db op).attendance, rowOk today op.time rest r' := by
      cases op with
      | checkIn t u conf =>
        intro r' hr'
        by_cases hex : db.attendance.any (attKey u today) = true
        · simp only [applyOp, recordCheckIn, if_pos hex, List.mem_map] at hr'
          obtain ⟨r, hr, rfl⟩ := hr'
          by_cases hk : attKey u today r = true
          · rw [if_pos hk]
            have hd : r.date = today := ((attKey_eq_true_iff u today r).mp hk).2
            have hu : r.user_id = u := ((attKey_eq_true_iff u today r).mp hk).1
            obtain ⟨h1, _⟩ := h r hr
            rcases h1 hd with ⟨hn, _⟩ | ⟨t', _, _, _, hno⟩
            · exact ⟨fun _ => Or.inl ⟨hn, le_refl t⟩, fun hd' => absurd hd hd'⟩
            · exfalso
              simp only [noCheckInFor, List.all_cons, Bool.and_eq_true] at hno
              have hhead := hno.1
              simp [isCheckInFor, hu] at hhead
          · rw [if_neg hk]
            exact rowOk_step hle r (h r hr)
        · simp only [applyOp, recordCheckIn, if_neg hex, List.mem_append] at hr'
          rcases hr' with hr' | hr'
          · exact rowOk_step hle _ (h _ hr')
          · rw [List.mem_singleton] at hr'
            subst hr'
            exact ⟨fun _ => Or.inl ⟨rfl, le_refl t⟩, fun hd' => absurd rfl hd'⟩
      | checkOut t u =>
        intro r' hr'
        have hA2 : noCheckInFor u rest = true ∧ okSeq rest = true := by
          simpa [okSeq] using hs
        have hA : noCheckInFor u rest = true := hA2.1
        simp only [applyOp, recordCheckOut, List.mem_map] at hr'
        obtain ⟨r, hr, rfl⟩ := hr'
        by_cases hg : (attKey u today r && r.check_out_time.isNone) = true
        · rw [if_pos hg]
          rw [Bool.and_eq_true] at hg
          obtain ⟨hk, hnone⟩ := hg
          have hd : r.date = today := ((attKey_eq_true_iff u today r).mp hk).2
          have hu : r.user_id = u := ((attKey_eq_true_iff u today r).mp hk).1
          have hn : r.check_out_time = none := Option.isNone_iff_eq_none.mp hnone
          obtain ⟨h1, _⟩ := h r hr
          rcases h1 hd with ⟨_, hin⟩ | ⟨t', hs', _, _, _⟩
          · exact ⟨fun _ => Or.inr ⟨t, rfl, hin.trans hle, le_refl t, hu ▸ hA⟩,
              fun hd' => absurd hd hd'⟩
          · exfalso
            rw [hn] at hs'
            cases hs'
        · rw [if_neg hg]
          exact rowOk_step hle r (h r hr)
    exact ih op.time (applyOp today db op) hm2 hs2 hmain

/-- C1: for every userId and every sequence of N >= 1 recordCheckIn calls
for that user on the same calendar day (starting from a state that, as the
UNIQUE(user_id, date) constraint guarantees, has at most one row for that
key), exactly one attendance row for (userId, day) exists afterwards, and
its check-in time and confidence score equal the values of the last call. -/
theorem C1_recordCheckIn_idempotent_row_count (u : Nat) (today : String)
    (calls : List (Nat × ℚ)) (db : DB) (hne : calls ≠ [])
    (huniq : (db.attendance.filter (attKey u today)).length ≤ 1) :
    ∃ r, ((calls.foldl (fun s tc => recordCheckIn tc.1 today u tc.2 s) db).attendance).filter
        (attKey u today) = [r]
      ∧ r.check_in_time = (calls.getLast hne).1
      ∧ r.confidence_score = (calls.getLast hne).2 := by
  induction calls generalizing db with
  | nil => exact absurd rfl hne
  | cons c cs ih =>
    cases cs with
    | nil =>
      simp only [List.foldl_cons, List.foldl_nil, List.getLast_singleton]
      exact recordCheckIn_filter_key c.1 today u c.2 db huniq
    | cons c2 cs2 =>
      obtain ⟨r1, hr1, _, _⟩ := recordCheckIn_filter_key c.1 today u c.2 db huniq
      have hlen : ((recordCheckIn c.1 today u c.2 db).attendance.filter
          (attKey u today)).length ≤ 1 := by
        rw [hr1]
        exact le_refl 1
      have hres := ih (recordCheckIn c.1 today u c.2 db) (List.cons_ne_nil c2 cs2) hlen
      simpa only [List.foldl_cons, List.getLast_cons] using hres

/-- Witness for C1: two same-day check-ins for user 1 on an empty ledger
leave exactly one row, via the main theorem. -/
theorem C1_recordCheckIn_idempotent_row_count_witness :
    ([((5 : Nat), (90 : ℚ)), (7, 95)] ≠ ([] : List (Nat × ℚ)))
    ∧ ((⟨[], [], [], 1, 1⟩ : DB).attendance.filter (attKey 1 "2026-10-11")).length ≤ 1
    ∧ ((([((5 : Nat), (90 : ℚ)), (7, 95)]).foldl
          (fun s tc => recordCheckIn tc.1 "2026-10-11" 1 tc.2 s)
          (⟨[], [], [], 1, 1⟩ : DB)).attendance.filter (attKey 1 "2026-10-11")).length = 1 := by
  refine ⟨by decide, by decide, ?_⟩
  obtain ⟨r, hr, _, _⟩ := C1_recordCheckIn_idempotent_row_count 1 "2026-10-11"
    [((5 : Nat), (90 : ℚ)), (7, 95)] ⟨[], [], [], 1, 1⟩ (by decide) (by decide)
  rw [hr]
  rfl

/-- Counterexample for C2: from an empty ledger, check in at time 0, check
out at time 1, then check in again at time 2, all on the same day; the one
reachable record then has check-out time 1 strictly earlier than its
check-in time 2, refuting the claimed invariant as stated. -/
theorem C2_checkout_before_checkin_counterexample :
    (recordCheckIn 2 "2026-10-11" 1 95
        (recordCheckOut 1 "2026-10-11" 1
          (recordCheckIn 0 "2026-10-11" 1 90 ⟨[], [], [], 1, 1⟩))).attendance
      = [⟨1, 1, 2, some 1, "2026-10-11", 95⟩]
    ∧ ¬ ((2 : Nat) ≤ 1) := by
  exact ⟨by decide, by decide⟩

/-- C2 amended: a record reachable by a same-day sequence of recordCheckIn
and recordCheckOut calls run at nondecreasing clock times satisfies
check-out not earlier than check-in, provided no check-in for a user
follows a check-out for that user (the pattern of the counterexample) and
every pre-existing record is of another day and already satisfies the
invariant. -/
theorem C2_checkout_invariant_amended (today : String) (db : DB) (t0 : Nat)
    (ops : List AttOp)
    (h0 : ∀ r ∈ db.attendance, r.date ≠ today ∧ checkOutInv r)
    (hm : timesMonoB t0 ops = true) (hs : okSeq ops = true) :
    ∀ r ∈ (runOps today db ops).attendance, checkOutInv r := by
  refine runOps_checkOutInv today ops t0 db hm hs ?_
  intro r hr
  obtain ⟨hd, hinv⟩ := h0 r hr
  exact ⟨fun hd' => absurd hd' hd, fun _ => hinv⟩

/-- Witness for C2: the amended theorem applied to a concrete check-in
followed by a check-out on an empty ledger. -/
theorem C2_checkout_invariant_amended_witness :
    timesMonoB 0 [AttOp.checkIn 0 1 90, AttOp.checkOut 1 1] = true
    ∧ okSeq [AttOp.checkIn 0 1 90, AttOp.checkOut 1 1] = true
    ∧ checkOutInv ⟨1, 1, 0, some 1, "2026-10-11", 90⟩ := by
  refine ⟨by decide, by decide, ?_⟩
  refine C2_checkout_invariant_amended "2026-10-11" ⟨[], [], [], 1, 1⟩ 0
    [AttOp.checkIn 0 1 90, AttOp.checkOut 1 1] ?_ (by decide) (by decide)
    ⟨1, 1, 0, some 1, "2026-10-11", 90⟩ (by decide)
  intro r hr
  cases hr

/-- C3: when recordCheckIn runs for a (userId, day) that already has a row
(the update branch), only check_in_time and confidence_score of the
matching row change; id, user_id, date and an existing check-out
timestamp are preserved, non-matching rows are untouched, no row is added
or removed, and the other tables are unchanged. -/
theorem C3_recordCheckIn_update_frame (now : Nat) (today : String) (u : Nat)
    (conf : ℚ) (db : DB) (hex : db.attendance.any (attKey u today) = true) :
    (recordCheckIn now today u conf db).users = db.users
    ∧ (recordCheckIn now today u conf db).face_samples = db.face_samples
    ∧ (recordCheckIn now today u conf db).attendance.length = db.attendance.length
    ∧ ∀ (i : Nat) (r r' : AttRow), db.attendance[i]? = some r →
        (recordCheckIn now today u conf db).attendance[i]? = some r' →
        (r'.id = r.id ∧ r'.user_id = r.user_id ∧ r'.date = r.date
          ∧ r'.check_out_time = r.check_out_time)
        ∧ (attKey u today r = true →
            r'.check_in_time = now ∧ r'.confidence_score = conf)
        ∧ (attKey u today r = false → r' = r) := by
  simp only [recordCheckIn, if_pos hex]
  refine ⟨by trivial, by trivial, List.length_map _ _, ?_⟩
  intro i r r' hr hr'
  rw [List.getElem?_map, hr, Option.map_some'] at hr'
  injection hr' with he
  subst he
  by_cases hk : attKey u today r = true
  · rw [if_pos hk]
    exact ⟨⟨rfl, rfl, rfl, rfl⟩, fun _ => ⟨rfl, rfl⟩,
      fun hk' => absurd hk (by simp [hk'])⟩
  · rw [if_neg hk]
    exact ⟨⟨rfl, rfl, rfl, rfl⟩, fun hk' => absurd hk' hk, fun _ => rfl⟩

/-- Witness for C3: the update branch on a database with one matching row
whose check-out is already set. -/
theorem C3_recordCheckIn_update_frame_witness :
    (⟨[], [⟨1, 1, 5, some 6, "2026-10-11", 80⟩], [], 1, 2⟩ : DB).attendance.any
        (attKey 1 "2026-10-11") = true
    ∧ (recordCheckIn 9 "2026-10-11" 1 95
          ⟨[], [⟨1, 1, 5, some 6, "2026-10-11", 80⟩], [], 1, 2⟩).attendance.length
        = (⟨[], [⟨1, 1, 5, some 6, "2026-10-11", 80⟩], [], 1, 2⟩ : DB).attendance.length := by
  refine ⟨by decide, ?_⟩
  exact (C3_recordCheckIn_update_frame 9 "2026-10-11" 1 95
    ⟨[], [⟨1, 1, 5, some 6, "2026-10-11", 80⟩], [], 1, 2⟩ (by decide)).2.2.1

/-- C4: recordCheckOut sets the check-out timestamp to now exactly on the
row for (userId, today) whose check-out is unset; when no such row exists
(no row at all, or check-out already set) the call leaves the database
entirely unchanged, creating no row and raising no error, and in every
case users, samples, the row count and all non-matching rows are
untouched. -/
theorem C4_recordCheckOut_first_wins (now : Nat) (today : String) (u : Nat) (db : DB) :
    (recordCheckOut now today u db).users = db.users
    ∧ (recordCheckOut now today u db).face_samples = db.face_samples
    ∧ (recordCheckOut now today u db).attendance.length = db.attendance.length
    ∧ (∀ (i : Nat) (r r' : AttRow), db.attendance[i]? = some r →
        (recordCheckOut now today u db).attendance[i]? = some r' →
        ((attKey u today r && r.check_out_time.isNone) = true →
          r' = { r with check_out_time := some now })
        ∧ ((attKey u today r && r.check_out_time.isNone) = false → r' = r))
    ∧ (db.attendance.any (fun r => attKey u today r && r.check_out_time.isNone) = false →
        recordCheckOut now today u db = db)
    ∧ (db.attendance.any (fun r => attKey u today r && r.check_out_time.isNone) = true →
        ∃ r' ∈ (recordCheckOut now today u db).attendance,
          attKey u today r' = true ∧ r'.check_out_time = some now) := by
  refine ⟨rfl, rfl, List.length_map _ _, ?_, ?_, ?_⟩
  · intro i r r' hr hr'
    simp only [recordCheckOut] at hr'
    rw [List.getElem?_map, hr, Option.map_some'] at hr'
    injection hr' with he
    subst he
    by_cases hg : (attKey u today r && r.check_out_time.isNone) = true
    · rw [if_pos hg]
      exact ⟨fun _ => rfl, fun hg' => absurd hg (by simp [hg'])⟩
    · rw [if_neg hg]
      exact ⟨fun hg' => absurd hg' hg, fun _ => rfl⟩
  · intro hno
    have hid : ∀ r ∈ db.attendance,
        (if attKey u today r && r.check_out_time.isNone then
          { r with check_out_time := some now }
        else r) = id r := by
      intro r hr
      rw [if_neg, id]
      intro hg
      have hc : db.attendance.any (fun r => attKey u today r && r.check_out_time.isNone) = true :=
        List.any_eq_true.mpr ⟨r, hr, hg⟩
      rw [hno] at hc
      exact absurd hc (by decide)
    have hmap : db.attendance.map (fun r =>
        if attKey u today r && r.check_out_time.isNone then
          { r with check_out_time := some now }
        else r) = db.attendance := by
      rw [List.map_congr_left hid, List.map_id]
    simp only [recordCheckOut, hmap]
  · intro hyes
    obtain ⟨r, hr, hg⟩ := List.any_eq_true.mp hyes
    have hgood : (if attKey u today r && r.check_out_time.isNone then
        { r with check_out_time := some now }
      else r) = { r with check_out_time := some now } := if_pos hg
    refine ⟨{ r with check_out_time := some now }, ?_, ?_, rfl⟩
    · simp only [recordCheckOut, List.mem_map]
      exact ⟨r, hr, hgood⟩
    · rw [Bool.and_eq_true] at hg
      exact hg.1

/-- Witness for C4: checking out a user whose only row for the day is
already checked out is a no-op on the whole database, via the main
theorem. -/
theorem C4_recordCheckOut_first_wins_witness :
    ((⟨[], [⟨1, 1, 5, some 6, "2026-10-11", 80⟩], [], 1, 2⟩ : DB).attendance.any
        (fun r => attKey 1 "2026-10-11" r && r.check_out_time.isNone) = false)
    ∧ recordCheckOut 9 "2026-10-11" 1 ⟨[], [⟨1, 1, 5, some 6, "2026-10-11", 80⟩], [], 1, 2⟩
        = ⟨[], [⟨1, 1, 5, some 6, "2026-10-11", 80⟩], [], 1, 2⟩ := by
  refine ⟨by decide, ?_⟩
  exact (C4_recordCheckOut_first_wins 9 "2026-10-11" 1
    ⟨[], [⟨1, 1, 5, some 6, "2026-10-11", 80⟩], [], 1, 2⟩).2.2.2.2.1 (by decide)

/-- C5: under the UNIQUE(user_id, date) constraint, formalised as at most
one attendance row per (userId, day), total_checkins_today (count of
today's rows) equals present_today (count of distinct userIds among
today's rows) in every stats result. -/
theorem C5_total_checkins_eq_present (today : String) (db : DB)
    (huniq : db.attendance.Pairwise
      (fun a b => ¬(a.user_id = b.user_id ∧ a.date = b.date))) :
    (getAttendanceStats today db).total_checkins_today
      = (getAttendanceStats today db).present_today := by
  simp only [getAttendanceStats]
  have hpw : (db.attendance.filter (fun r => r.date == today)).Pairwise
      (fun a b => ¬(a.user_id = b.user_id ∧ a.date = b.date)) :=
    huniq.filter _
  have hne : (db.attendance.filter (fun r => r.date == today)).Pairwise
      (fun a b => a.user_id ≠ b.user_id) := by
    refine hpw.imp_of_mem ?_
    intro a b ha hb hnab he
    have hda : a.date = today := by simpa using (List.mem_filter.mp ha).2
    have hdb : b.date = today := by simpa using (List.mem_filter.mp hb).2
    exact hnab ⟨he, hda.trans hdb.symm⟩
  have hnodup : ((db.attendance.filter (fun r => r.date == today)).map
      (fun r => r.user_id)).Nodup :=
    List.pairwise_map.mpr hne
  rw [List.dedup_eq_self.mpr hnodup, List.length_map]

/-- Witness for C5: a database with two distinct users checked in today. -/
theorem C5_total_checkins_eq_present_witness :
    ((⟨[], [⟨1, 1, 5, none, "2026-10-11", 90⟩, ⟨2, 2, 6, some 7, "2026-10-11", 80⟩],
        [], 1, 3⟩ : DB).attendance.Pairwise
      (fun a b => ¬(a.user_id = b.user_id ∧ a.date = b.date)))
    ∧ (getAttendanceStats "2026-10-11"
        ⟨[], [⟨1, 1, 5, none, "2026-10-11", 90⟩, ⟨2, 2, 6, some 7, "2026-10-11", 80⟩],
          [], 1, 3⟩).total_checkins_today
      = (getAttendanceStats "2026-10-11"
        ⟨[], [⟨1, 1, 5, none, "2026-10-11", 90⟩, ⟨2, 2, 6, some 7, "2026-10-11", 80⟩],
          [], 1, 3⟩).present_today := by
  refine ⟨by decide, ?_⟩
  exact C5_total_checkins_eq_present "2026-10-11"
    ⟨[], [⟨1, 1, 5, none, "2026-10-11", 90⟩, ⟨2, 2, 6, some 7, "2026-10-11", 80⟩],
      [], 1, 3⟩ (by decide)

/-- C6: in every stats result, recent_checkins holds at most 10 records,
all dated today, sorted by check-in timestamp in descending order, each
annotated with the display name of the user row it joins to, and every
record of today left out has a check-in time no later than every record
returned. -/
theorem C6_recent_checkins_top10 (today : String) (db : DB) :
    (getAttendanceStats today db).recent_checkins.length ≤ 10
    ∧ (∀ v ∈ (getAttendanceStats today db).recent_checkins, v.date = today)
    ∧ (getAttendanceStats today db).recent_checkins.Pairwise
        (fun a b => b.check_in_time ≤ a.check_in_time)
    ∧ (∀ v ∈ (getAttendanceStats today db).recent_checkins,
        ∃ u ∈ db.users, u.id = v.user_id ∧ v.user_name = u.name)
    ∧ (∀ x ∈ getTodayAttendance today db,
        x ∉ (getAttendanceStats today db).recent_checkins →
        ∀ y ∈ (getAttendanceStats today db).recent_checkins,
          x.check_in_time ≤ y.check_in_time) := by
  have hres : (getAttendanceStats today db).recent_checkins
      = (getTodayAttendance today db).take 10 := rfl
  have hjoined : ∀ v ∈ getTodayAttendance today db,
      ∃ r ∈ db.attendance.filter (fun r => r.date == today),
        ∃ u ∈ db.users, (u.id == r.user_id) = true
          ∧ v = ⟨r.id, r.user_id, u.name, r.check_in_time, r.check_out_time, r.date,
              r.confidence_score⟩ := by
    intro v hv
    have hv' : v ∈ (db.attendance.filter (fun r => r.date == today)).filterMap (fun r =>
        (db.users.find? (fun u => u.id == r.user_id)).map (fun u =>
          ⟨r.id, r.user_id, u.name, r.check_in_time, r.check_out_time, r.date,
            r.confidence_score⟩)) :=
      ((sortLe_perm _ _).mem_iff).mp hv
    obtain ⟨r, hrm, hmap⟩ := List.mem_filterMap.mp hv'
    obtain ⟨u, hfind, hview⟩ := Option.map_eq_some'.mp hmap
    have hpred := List.find?_some hfind
    exact ⟨r, hrm, u, List.mem_of_find?_eq_some hfind, by simpa using hpred, hview.symm⟩
  have hsorted : (getTodayAttendance today db).Pairwise
      (fun a b => Nat.ble b.check_in_time a.check_in_time = true) := by
    apply sortLe_pairwise
    · intro a b
      rcases Nat.le_total b.check_in_time a.check_in_time with h | h
      · exact Or.inl (Nat.ble_eq_true_of_le h)
      · exact Or.inr (Nat.ble_eq_true_of_le h)
    · intro a b c hab hbc
      rw [Nat.ble_eq] at hab hbc ⊢
      exact hbc.trans hab
  refine ⟨?_, ?_, ?_, ?_, ?_⟩
  · rw [hres, List.length_take]
    exact min_le_left _ _
  · intro v hv
    obtain ⟨r, hrm, _, _, _, hview⟩ :=
      hjoined v ((List.take_sublist 10 _).subset (hres ▸ hv))
    have hrd : (r.date == today) = true := (List.mem_filter.mp hrm).2
    rw [hview]
    simpa using hrd
  · rw [hres]
    exact ((hsorted.sublist (List.take_sublist 10 _)).imp
      (fun h => by rwa [Nat.ble_eq] at h))
  · intro v hv
    obtain ⟨r, _, u, hum, hid, hview⟩ :=
      hjoined v ((List.take_sublist 10 _).subset (hres ▸ hv))
    refine ⟨u, hum, ?_, ?_⟩
    · rw [hview]
      simpa using hid
    · rw [hview]
  · intro x hx hnx y hy
    have hsplit : (getTodayAttendance today db).take 10
        ++ (getTodayAttendance today db).drop 10 = getTodayAttendance today db :=
      List.take_append_drop 10 _
    have hpw := hsorted
    rw [← hsplit] at hpw
    obtain ⟨_, _, hcross⟩ := List.pairwise_append.mp hpw
    have hxd : x ∈ (getTodayAttendance today db).drop 10 := by
      rw [← hsplit] at hx
      rcases List.mem_append.mp hx with hx' | hx'
      · exact absurd (hres ▸ hx') hnx
      · exact hx'
    have := hcross y (hres ▸ hy) x hxd
    rwa [Nat.ble_eq] at this

/-- Witness for C6: with eleven users checked in today, the earliest
check-in is left out of recent_checkins and, via the main theorem, its
check-in time is no later than that of a returned record. -/
theorem C6_recent_checkins_top10_witness :
    ((⟨1, 1, "U1", 1, none, "2026-10-11", 90⟩ : AttendanceView)
        ∈ getTodayAttendance "2026-10-11"
          (⟨[⟨1, "U1", "u1@x", "e1", 0, true⟩, ⟨2, "U2", "u2@x", "e2", 0, true⟩, ⟨3, "U3", "u3@x", "e3", 0, true⟩, ⟨4, "U4", "u4@x", "e4", 0, true⟩, ⟨5, "U5", "u5@x", "e5", 0, true⟩, ⟨6, "U6", "u6@x", "e6", 0, true⟩, ⟨7, "U7", "u7@x", "e7", 0, true⟩, ⟨8, "U8", "u8@x", "e8", 0, true⟩, ⟨9, "U9", "u9@x", "e9", 0, true⟩, ⟨10, "U10", "u10@x", "e10", 0, true⟩, ⟨11, "U11", "u11@x", "e11", 0, true⟩],
      [⟨1, 1, 1, none, "2026-10-11", 90⟩, ⟨2, 2, 2, none, "2026-10-11", 90⟩, ⟨3, 3, 3, none, "2026-10-11", 90⟩, ⟨4, 4, 4, none, "2026-10-11", 90⟩, ⟨5, 5, 5, none, "2026-10-11", 90⟩, ⟨6, 6, 6, none, "2026-10-11", 90⟩, ⟨7, 7, 7, none, "2026-10-11", 90⟩, ⟨8, 8, 8, none, "2026-10-11", 90⟩, ⟨9, 9, 9, none, "2026-10-11", 90⟩, ⟨10, 10, 10, none, "2026-10-11", 90⟩, ⟨11, 11, 11, none, "2026-10-11", 90⟩],
      [], 12, 12⟩ : DB))
    ∧ ((⟨1, 1, "U1", 1, none, "2026-10-11", 90⟩ : AttendanceView)
        ∉ (getAttendanceStats "2026-10-11"
          (⟨[⟨1, "U1", "u1@x", "e1", 0, true⟩, ⟨2, "U2", "u2@x", "e2", 0, true⟩, ⟨3, "U3", "u3@x", "e3", 0, true⟩, ⟨4, "U4", "u4@x", "e4", 0, true⟩, ⟨5, "U5", "u5@x", "e5", 0, true⟩, ⟨6, "U6", "u6@x", "e6", 0, true⟩, ⟨7, "U7", "u7@x", "e7", 0, true⟩, ⟨8, "U8", "u8@x", "e8", 0, true⟩, ⟨9, "U9", "u9@x", "e9", 0, true⟩, ⟨10, "U10", "u10@x", "e10", 0, true⟩, ⟨11, "U11", "u11@x", "e11", 0, true⟩],
      [⟨1, 1, 1, none, "2026-10-11", 90⟩, ⟨2, 2, 2, none, "2026-10-11", 90⟩, ⟨3, 3, 3, none, "2026-10-11", 90⟩, ⟨4, 4, 4, none, "2026-10-11", 90⟩, ⟨5, 5, 5, none, "2026-10-11", 90⟩, ⟨6, 6, 6, none, "2026-10-11", 90⟩, ⟨7, 7, 7, none, "2026-10-11", 90⟩, ⟨8, 8, 8, none, "2026-10-11", 90⟩, ⟨9, 9, 9, none, "2026-10-11", 90⟩, ⟨10, 10, 10, none, "2026-10-11", 90⟩, ⟨11, 11, 11, none, "2026-10-11", 90⟩],
      [], 12, 12⟩ : DB)).recent_checkins)
    ∧ ((⟨11, 11, "U11", 11, none, "2026-10-11", 90⟩ : AttendanceView)
        ∈ (getAttendanceStats "2026-10-11"
          (⟨[⟨1, "U1", "u1@x", "e1", 0, true⟩, ⟨2, "U2", "u2@x", "e2", 0, true⟩, ⟨3, "U3", "u3@x", "e3", 0, true⟩, ⟨4, "U4", "u4@x", "e4", 0, true⟩, ⟨5, "U5", "u5@x", "e5", 0, true⟩, ⟨6, "U6", "u6@x", "e6", 0, true⟩, ⟨7, "U7", "u7@x", "e7", 0, true⟩, ⟨8, "U8", "u8@x", "e8", 0, true⟩, ⟨9, "U9", "u9@x", "e9", 0, true⟩, ⟨10, "U10", "u10@x", "e10", 0, true⟩, ⟨11, "U11", "u11@x", "e11", 0, true⟩],
      [⟨1, 1, 1, none, "2026-10-11", 90⟩, ⟨2, 2, 2, none, "2026-10-11", 90⟩, ⟨3, 3, 3, none, "2026-10-11", 90⟩, ⟨4, 4, 4, none, "2026-10-11", 90⟩, ⟨5, 5, 5, none, "2026-10-11", 90⟩, ⟨6, 6, 6, none, "2026-10-11", 90⟩, ⟨7, 7, 7, none, "2026-10-11", 90⟩, ⟨8, 8, 8, none, "2026-10-11", 90⟩, ⟨9, 9, 9, none, "2026-10-11", 90⟩, ⟨10, 10, 10, none, "2026-10-11", 90⟩, ⟨11, 11, 11, none, "2026-10-11", 90⟩],
      [], 12, 12⟩ : DB)).recent_checkins)
    ∧ (1 : Nat) ≤ 11 := by
  refine ⟨by decide, by decide, by decide, ?_⟩
  exact (C6_recent_checkins_top10 "2026-10-11"
      (⟨[⟨1, "U1", "u1@x", "e1", 0, true⟩, ⟨2, "U2", "u2@x", "e2", 0, true⟩, ⟨3, "U3", "u3@x", "e3", 0, true⟩, ⟨4, "U4", "u4@x", "e4", 0, true⟩, ⟨5, "U5", "u5@x", "e5", 0, true⟩, ⟨6, "U6", "u6@x", "e6", 0, true⟩, ⟨7, "U7", "u7@x", "e7", 0, true⟩, ⟨8, "U8", "u8@x", "e8", 0, true⟩, ⟨9, "U9", "u9@x", "e9", 0, true⟩, ⟨10, "U10", "u10@x", "e10", 0, true⟩, ⟨11, "U11", "u11@x", "e11", 0, true⟩],
      [⟨1, 1, 1, none, "2026-10-11", 90⟩, ⟨2, 2, 2, none, "2026-10-11", 90⟩, ⟨3, 3, 3, none, "2026-10-11", 90⟩, ⟨4, 4, 4, none, "2026-10-11", 90⟩, ⟨5, 5, 5, none, "2026-10-11", 90⟩, ⟨6, 6, 6, none, "2026-10-11", 90⟩, ⟨7, 7, 7, none, "2026-10-11", 90⟩, ⟨8, 8, 8, none, "2026-10-11", 90⟩, ⟨9, 9, 9, none, "2026-10-11", 90⟩, ⟨10, 10, 10, none, "2026-10-11", 90⟩, ⟨11, 11, 11, none, "2026-10-11", 90⟩],
      [], 12, 12⟩ : DB)).2.2.2.2
    ⟨1, 1, "U1", 1, none, "2026-10-11", 90⟩ (by decide) (by decide)
    ⟨11, 11, "U11", 11, none, "2026-10-11", 90⟩ (by decide)

/-- C7: when the set of enrolled candidate encodings is empty, the checkin
route fails with the no-enrolled-users outcome (an unsuccessful result,
HTTP 400) before the recognizer is consulted, and leaves the database
unchanged, whatever the probe produced. -/
theorem C7_checkin_no_enrolled_users (now : Nat) (today : String) (pyOk : Bool)
    (recog : RecognitionResult) (db : DB)
    (hempty : getAllUserEncodings db = []) :
    checkinRoute now today true pyOk recog db
      = (⟨false, "No registered users found in the system", 400⟩, db) := by
  simp [checkinRoute, hempty]

/-- Witness for C7: a database whose only user is deactivated has no
enrolled encodings, so the checkin route rejects any recognition input. -/
theorem C7_checkin_no_enrolled_users_witness :
    getAllUserEncodings ⟨[⟨1, "A", "a@x", "e", 0, false⟩], [], [], 2, 1⟩ = []
    ∧ checkinRoute 5 "2026-10-11" true true ⟨true, some 1, "A", 90, "ok"⟩
        ⟨[⟨1, "A", "a@x", "e", 0, false⟩], [], [], 2, 1⟩
      = (⟨false, "No registered users found in the system", 400⟩,
          ⟨[⟨1, "A", "a@x", "e", 0, false⟩], [], [], 2, 1⟩) := by
  refine ⟨by decide, ?_⟩
  exact C7_checkin_no_enrolled_users 5 "2026-10-11" true ⟨true, some 1, "A", 90, "ok"⟩
    ⟨[⟨1, "A", "a@x", "e", 0, false⟩], [], [], 2, 1⟩ (by decide)

/-- C8: the confidence of a match equals clamp01(1 - distance / tolerance)
* 100: it always lies in [0, 100], is 100 at distance 0 and 0 at the
tolerance boundary, is monotonically decreasing in the distance, every
matchFace result carries exactly this confidence, and the spec's Scenario
A evaluates to matched = true, userId = 7, distance = 1/20 and confidence
= 275/3, which is within 0.1 of 91.7. -/
theorem C8_confidence_formula :
    (∀ d t : ℚ, 0 ≤ confidencePct d t ∧ confidencePct d t ≤ 100)
    ∧ (∀ t : ℚ, 0 < t → confidencePct 0 t = 100 ∧ confidencePct t t = 0)
    ∧ (∀ t d₁ d₂ : ℚ, 0 < t → d₁ ≤ d₂ → confidencePct d₂ t ≤ confidencePct d₁ t)
    ∧ (∀ (probe : List ℚ) (cands : List (Nat × List ℚ)) (tol : ℚ)
        (b : Bool) (uid : Option Nat) (d conf : ℚ),
        matchFace probe cands tol (MatchOutcome.result b uid d conf) →
        conf = confidencePct d tol)
    ∧ matchFace [1/20, 0, 0] [(7, [0, 0, 0])] (3/5)
        (MatchOutcome.result true (some 7) (1/20) (275/3))
    ∧ |(275 : ℚ)/3 - 917/10| < 1/10 := by
  refine ⟨?_, ?_, ?_, ?_, ?_, by rw [abs_lt]; exact ⟨by norm_num, by norm_num⟩⟩
  · intro d t
    constructor
    · exact mul_nonneg (le_max_left 0 _) (by norm_num)
    · have hc : clamp01 (1 - d / t) ≤ 1 := max_le (by norm_num) (min_le_left _ _)
      calc clamp01 (1 - d / t) * 100 ≤ 1 * 100 :=
            mul_le_mul_of_nonneg_right hc (by norm_num)
        _ = 100 := by norm_num
  · intro t ht
    constructor
    · norm_num [confidencePct, clamp01, zero_div]
    · norm_num [confidencePct, clamp01, div_self (ne_of_gt ht)]
  · intro t d₁ d₂ ht h12
    have h1 : d₁ / t ≤ d₂ / t := by
      rw [div_eq_mul_inv, div_eq_mul_inv]
      exact mul_le_mul_of_nonneg_right h12 (inv_nonneg.mpr ht.le)
    have h2 : (1 : ℚ) - d₂ / t ≤ 1 - d₁ / t := sub_le_sub_left h1 1
    have h3 : min 1 (1 - d₂ / t) ≤ min 1 (1 - d₁ / t) := min_le_min (le_refl 1) h2
    have h4 : clamp01 (1 - d₂ / t) ≤ clamp01 (1 - d₁ / t) := max_le_max (le_refl 0) h3
    exact mul_le_mul_of_nonneg_right h4 (by norm_num)
  · intro probe cands tol b uid d conf h
    cases cands with
    | nil => simp [matchFace] at h
    | cons c cs =>
      simp only [matchFace] at h
      split at h
      · simp at h
      · obtain ⟨d', _, hif⟩ := h
        split at hif
        · injection hif with h1 h2 h3 h4
          rw [h4, h3]
        · injection hif with h1 h2 h3 h4
          rw [h4, h3]
  · have hsel : selectBestSq [1/20, 0, 0] (7, [0, 0, 0]) [] = (7, 1/400) := by
      norm_num [selectBestSq, euclideanDistSq]
    simp only [matchFace, hsel]
    rw [if_neg (by decide)]
    refine ⟨1/20, ⟨by norm_num, by norm_num⟩, ?_⟩
    rw [if_pos (by norm_num)]
    norm_num [confidencePct, clamp01]

/-- Witness for C8: the formula facts evaluated at the default tolerance
and at Scenario A's distance, via the main theorem. -/
theorem C8_confidence_formula_witness :
    (0 : ℚ) < 3/5
    ∧ confidencePct 0 (3/5) = 100
    ∧ confidencePct (3/5) (3/5) = 0
    ∧ ((1 : ℚ)/10 ≤ 2/10)
    ∧ confidencePct (2/10) (3/5) ≤ confidencePct (1/10) (3/5)
    ∧ (275 : ℚ)/3 = confidencePct (1/20) (3/5) := by
  refine ⟨by norm_num, (C8_confidence_formula.2.1 (3/5) (by norm_num)).1,
    (C8_confidence_formula.2.1 (3/5) (by norm_num)).2, by norm_num,
    C8_confidence_formula.2.2.1 (3/5) (1/10) (2/10) (by norm_num) (by norm_num),
    C8_confidence_formula.2.2.2.1 [1/20, 0, 0] [(7, [0, 0, 0])] (3/5) true (some 7)
      (1/20) (275/3) C8_confidence_formula.2.2.2.2.1⟩

theorem users_foldl_addFaceSample (uid : Nat) :
    ∀ (ps : List (String × String)) (db : DB),
      (ps.foldl (fun s p => addFaceSample uid p.1 p.2 s) db).users = db.users := by
  intro ps
  induction ps with
  | nil => intro db; rfl
  | cons p ps ih =>
    intro db
    rw [List.foldl_cons]
    exact (ih (addFaceSample uid p.1 p.2 db)).trans rfl

/-- C9: registering with the email of an existing active user fails with
the duplicate outcome (HTTP 409) and leaves the state unchanged — no user
row and no face sample row is created — and every registration, on any
input, preserves uniqueness of email among active users. -/
theorem C9_register_duplicate_email (now : Nat) (name email : String)
    (face_images : List String) (encodeImg : String → Option String) (db : DB) :
    ((name ≠ "" ∧ email ≠ "" ∧ face_images ≠ []) →
      (∃ w ∈ db.users, w.is_active = true ∧ w.email = email) →
      register now name email face_images encodeImg db
        = (⟨false, "User with this email already exists", 409⟩, db))
    ∧ (emailUniqueActive db →
        emailUniqueActive (register now name email face_images encodeImg db).2) := by
  constructor
  · rintro ⟨hn, he, hf⟩ hdup
    have hcond : ¬(name = "" ∨ email = "" ∨ face_images = []) := by
      rintro (h | h | h)
      · exact hn h
      · exact he h
      · exact hf h
    obtain ⟨w, hw, hact, hemail⟩ := hdup
    have hsome : (getUserByEmail email db).isSome = true := by
      rw [getUserByEmail, List.find?_isSome]
      exact ⟨w, hw, by simp [hemail, hact]⟩
    simp only [register, if_neg hcond, if_pos hsome]
  · intro hU
    by_cases h1 : (name = "" ∨ email = "" ∨ face_images = [])
    · simp only [register, if_pos h1]
      exact hU
    · by_cases h2 : (getUserByEmail email db).isSome = true
      · simp only [register, if_neg h1, if_pos h2]
        exact hU
      · simp only [register, if_neg h1, if_neg h2]
        cases hcoll : collectEncodings (face_images.map encodeImg) with
        | none => exact hU
        | some encs =>
          cases encs with
          | nil => exact hU
          | cons e0 es =>
            dsimp only
            cases hcre : createUser name email e0 now db with
            | none => exact hU
            | some pr =>
              obtain ⟨uid, db1⟩ := pr
              dsimp only
              have hfacts : db.users.any (fun v => v.email == email) = false
                  ∧ db1.users
                    = db.users ++ [⟨db.next_user_id, name, email, e0, now, true⟩] := by
                unfold createUser at hcre
                by_cases hany : db.users.any (fun v => v.email == email) = true
                · rw [if_pos hany] at hcre
                  cases hcre
                · rw [if_neg hany] at hcre
                  injection hcre with hpair
                  have hsnd : ({ db with
                      users := db.users
                        ++ [⟨db.next_user_id, name, email, e0, now, true⟩],
                      next_user_id := db.next_user_id + 1 } : DB) = db1 :=
                    congrArg Prod.snd hpair
                  refine ⟨by simpa using hany, ?_⟩
                  rw [← hsnd]
              have husers : ((List.zip face_images (e0 :: es)).foldl
                  (fun s p => addFaceSample uid p.1 p.2 s) db1).users = db1.users :=
                users_foldl_addFaceSample uid _ db1
              unfold emailUniqueActive
              rw [husers, hfacts.2, List.pairwise_append]
              refine ⟨hU, by simp, ?_⟩
              intro a ha b hb
              rw [List.mem_singleton] at hb
              subst hb
              intro _ _ heq
              have hbad : db.users.any (fun v => v.email == email) = true :=
                List.any_eq_true.mpr ⟨a, ha, by simp [heq]⟩
              rw [hfacts.1] at hbad
              exact absurd hbad (by decide)

/-- Witness for C9: registering a second user with the active user's email
is rejected with 409 and changes nothing, via the main theorem. -/
theorem C9_register_duplicate_email_witness :
    (("Bob" ≠ "") ∧ ("a@x" ≠ "") ∧ (["img"] ≠ ([] : List String)))
    ∧ register 7 "Bob" "a@x" ["img"] (fun _ => some "enc")
        ⟨[⟨1, "Alice", "a@x", "e", 0, true⟩], [], [], 2, 1⟩
      = (⟨false, "User with this email already exists", 409⟩,
          ⟨[⟨1, "Alice", "a@x", "e", 0, true⟩], [], [], 2, 1⟩) := by
  refine ⟨⟨by decide, by decide, by decide⟩, ?_⟩
  exact (C9_register_duplicate_email 7 "Bob" "a@x" ["img"] (fun _ => some "enc")
    ⟨[⟨1, "Alice", "a@x", "e", 0, true⟩], [], [], 2, 1⟩).1
    ⟨by decide, by decide, by decide⟩
    ⟨⟨1, "Alice", "a@x", "e", 0, true⟩, by decide, by decide, by decide⟩

theorem filter_erase_of_not_pass {α : Type _} [DecidableEq α] (p : α → Bool) (u : α)
    (hu : p u = false) : ∀ l : List α, (l.erase u).filter p = l.filter p := by
  intro l
  induction l with
  | nil => rfl
  | cons a l ih =>
    rw [List.erase_cons]
    by_cases ha : (a == u) = true
    · rw [if_pos ha]
      have haq : a = u := eq_of_beq ha
      subst haq
      simp [List.filter_cons, hu]
    · rw [if_neg ha]
      rw [List.filter_cons, List.filter_cons, ih]

/-- C10: every read of the user set excludes deactivated users: the id and
email lookups return null for an inactive row (the respective column
being unique), the row is invisible to getAllUsers, getAllUserEncodings
and the totalUsers count (erasing it changes none of them even though the
row still exists), and every row getAllUsers returns is active. -/
theorem C10_reads_exclude_inactive (today : String) (db : DB) (u : UserRow)
    (_hmem : u ∈ db.users) (hinact : u.is_active = false) :
    ((∀ v ∈ db.users, v.id = u.id → v = u) → getUserById u.id db = none)
    ∧ ((∀ v ∈ db.users, v.email = u.email → v = u) → getUserByEmail u.email db = none)
    ∧ getAllUsers { db with users := db.users.erase u } = getAllUsers db
    ∧ getAllUserEncodings { db with users := db.users.erase u } = getAllUserEncodings db
    ∧ (getAttendanceStats today { db with users := db.users.erase u }).total_users
        = (getAttendanceStats today db).total_users
    ∧ (∀ p ∈ getAllUsers db, p.is_active = true) := by
  have herase : (db.users.erase u).filter (fun v => v.is_active)
      = db.users.filter (fun v => v.is_active) :=
    filter_erase_of_not_pass (fun v => v.is_active) u hinact db.users
  refine ⟨?_, ?_, ?_, ?_, ?_, ?_⟩
  · intro hid
    rw [getUserById, List.find?_eq_none]
    intro x hx hpx
    rw [Bool.and_eq_true] at hpx
    have hxid : x.id = u.id := by simpa using hpx.1
    have hxact := hpx.2
    rw [hid x hx hxid, hinact] at hxact
    exact absurd hxact (by decide)
  · intro hemail
    rw [getUserByEmail, List.find?_eq_none]
    intro x hx hpx
    rw [Bool.and_eq_true] at hpx
    have hxe : x.email = u.email := by simpa using hpx.1
    have hxact := hpx.2
    rw [hemail x hx hxe, hinact] at hxact
    exact absurd hxact (by decide)
  · simp only [getAllUsers]
    rw [herase]
  · simp only [getAllUserEncodings]
    rw [herase]
  · simp only [getAttendanceStats]
    rw [herase]
  · intro p hp
    have hp' : p ∈ (db.users.filter (fun v => v.is_active)).map
        (fun v => (⟨v.id, v.name, v.email, v.created_at, v.is_active⟩ : UserPublic)) :=
      ((sortLe_perm _ _).mem_iff).mp hp
    obtain ⟨v, hv, hview⟩ := List.mem_map.mp hp'
    have hva : v.is_active = true := by simpa using (List.mem_filter.mp hv).2
    rw [← hview]
    exact hva

/-- Witness for C10: a two-user database whose first user is deactivated;
both lookups miss it and erasing it leaves every read unchanged, via the
main theorem. -/
theorem C10_reads_exclude_inactive_witness :
    ((⟨1, "A", "a@x", "e", 0, false⟩ : UserRow)
        ∈ (⟨[⟨1, "A", "a@x", "e", 0, false⟩, ⟨2, "B", "b@x", "f", 0, true⟩],
            [], [], 3, 1⟩ : DB).users)
    ∧ getUserById 1 ⟨[⟨1, "A", "a@x", "e", 0, false⟩, ⟨2, "B", "b@x", "f", 0, true⟩],
        [], [], 3, 1⟩ = none
    ∧ getUserByEmail "a@x" ⟨[⟨1, "A", "a@x", "e", 0, false⟩, ⟨2, "B", "b@x", "f", 0, true⟩],
        [], [], 3, 1⟩ = none := by
  refine ⟨by decide, ?_, ?_⟩
  · exact (C10_reads_exclude_inactive "2026-10-11"
      ⟨[⟨1, "A", "a@x", "e", 0, false⟩, ⟨2, "B", "b@x", "f", 0, true⟩], [], [], 3, 1⟩
      ⟨1, "A", "a@x", "e", 0, false⟩ (by decide) (by decide)).1 (by decide)
  · exact (C10_reads_exclude_inactive "2026-10-11"
      ⟨[⟨1, "A", "a@x", "e", 0, false⟩, ⟨2, "B", "b@x", "f", 0, true⟩], [], [], 3, 1⟩
      ⟨1, "A", "a@x", "e", 0, false⟩ (by decide) (by decide)).2.1 (by decide)
